import Mathlib

/-!
Shallow embedding of the side-set mutation ledger of the Exodus II editing
library (`ss_ledger.py`) together with the parts of the backing-store
accessor facade (`exodus.py`) that the ledger calls, and proofs of the
specification claims about them.

Machine integers of the source (numpy int32 contents of the id, status and
member arrays) are modelled as `Int`; the mesh files in scope never reach
overflow and no arithmetic is performed on the stored values.  Python
exceptions are modelled by the `PyErr` type; an operation that can leave
the object partially mutated when an exception escapes returns the
post-exception state together with an optional error.
-/

/-- Python exceptions raised by the embedded code, tagged by their class. -/
inductive PyErr where
  | exception (msg : String)
  | keyError (msg : String)
  | indexError (msg : String)
  | typeError (msg : String)
  | permissionError (msg : String)
deriving DecidableEq, Repr

/-- One read issued against the backing store (the opened netCDF dataset),
recorded so that theorems can state which operations perform bulk array
loads and which only touch lightweight metadata. -/
inductive Event where
  | readDim (name : String)
  | readProp1 (i : Nat)
  | readStatus (i : Nat)
  | readName (i : Nat)
  | readParams (id : Int)
  | readSideSet (id : Int)
  | readSideSetDF (id : Int)
deriving DecidableEq, Repr

/-- Whether an event is a bulk member/weight array load (`get_side_set` or
`get_side_set_df`), as opposed to a lightweight metadata read. -/
def Event.isBulk : Event → Bool
  | .readSideSet _ => true
  | .readSideSetDF _ => true
  | _ => false

/-- The side-set contents of an opened Exodus database (the parts of
`ex.data` that `ss_ledger.py` and the side-set getters of `exodus.py`
touch).  Index `i` (0-based) of each per-set list corresponds to the
netCDF names suffixed with the internal id `i+1` (`elem_ss{i+1}`,
`num_side_ss{i+1}`, ...). -/
structure Store where
  /-- whether the dimension `num_side_sets` is present -/
  hasNumSideSets : Bool
  /-- the size of the dimension `num_side_sets` when present -/
  numSideSetsDim : Nat
  /-- the variable `ss_prop1` (external side-set ids) -/
  prop1 : List Int
  /-- the variable `ss_status` -/
  status : List Int
  /-- the sizes of the dimensions `num_side_ss{i+1}` -/
  sizes : List Nat
  /-- whether the variable `ss_names` is present -/
  hasNames : Bool
  /-- the parsed rows of `ss_names` when present -/
  names : List String
  /-- the sizes of the dimensions `num_df_ss{i+1}` -/
  dfSizes : List Nat
  /-- the contents of the variables `elem_ss{i+1}` -/
  elems : List (List Int)
  /-- the contents of the variables `side_ss{i+1}` -/
  sides : List (List Int)
  /-- the contents of the variables `dist_fact_ss{i+1}` -/
  dfs : List (List Int)
deriving Repr

/-- `Exodus.num_side_sets`: the size of the dimension `num_side_sets`,
or `0` when the dimension is absent (the `KeyError` branch). -/
def Store.num_side_sets (st : Store) : Nat :=
  if st.hasNumSideSets then st.numSideSetsDim else 0

/-- `Exodus._MAX_NAME_LENGTH`. -/
def MAX_NAME_LENGTH : Nat := 32

/-- `Exodus._lookup_id('sideset', num)`: scan the `ss_prop1` table for the
first entry equal to `num`, returning the 1-based internal id, or a
`KeyError` when the scan runs off the end of the table. -/
def Exodus.lookup_id (st : Store) (num : Int) : Except PyErr Nat :=
  match (List.range st.prop1.length).find? (fun j => st.prop1.getD j 0 == num) with
  | some j => .ok (j + 1)
  | none =>
      .error (.keyError ("Could not find set/block of type sideset with id " ++ toString num))

/-- `Exodus.get_side_set(id)`: resolve the internal id, then return the
full contents of `elem_ss{n}` and `side_ss{n}`. -/
def Exodus.get_side_set (st : Store) (id : Int) : Except PyErr (List Int × List Int) :=
  if st.num_side_sets = 0 then
    .error (.keyError ("No sidesets are stored in this database!"))
  else
    match Exodus.lookup_id st id with
    | .error e => .error e
    | .ok n => .ok (st.elems.getD (n - 1) [], st.sides.getD (n - 1) [])

/-- `Exodus.get_side_set_df(id)`: resolve the internal id, then return the
full contents of `dist_fact_ss{n}`. -/
def Exodus.get_side_set_df (st : Store) (id : Int) : Except PyErr (List Int) :=
  if st.num_side_sets = 0 then
    .error (.keyError ("No sidesets are stored in this database!"))
  else
    match Exodus.lookup_id st id with
    | .error e => .error e
    | .ok n => .ok (st.dfs.getD (n - 1) [])

/-- `Exodus.get_side_set_params(id)`: resolve the internal id, then return
the pair of the sizes of the dimensions `num_side_ss{n}` and
`num_df_ss{n}`. -/
def Exodus.get_side_set_params (st : Store) (id : Int) : Except PyErr (Nat × Nat) :=
  if st.num_side_sets = 0 then
    .error (.keyError ("No side sets are stored in this database!"))
  else
    match Exodus.lookup_id st id with
    | .error e => .error e
    | .ok n => .ok (st.sizes.getD (n - 1) 0, st.dfSizes.getD (n - 1) 0)

/-- Modelled from the spec: `SSLedger.__init__` reads each seeded set's
weight count through a facade method it calls `get_sideset_params`; that
name is bound by the ledger wiring module of the repository, which is not
among the given source files.  Per the specification, seeding reads the
per-set weight-count metadata through the Backing Store Facade, which is
exactly the metadata getter `Exodus.get_side_set_params` of `exodus.py`. -/
def Exodus.get_sideset_params (st : Store) (id : Int) : Except PyErr (Nat × Nat) :=
  Exodus.get_side_set_params st id

/-- The in-memory state of `SSLedger`: the parallel per-set lists and the
set count.  A `none` entry of `ss_elem`/`ss_sides`/`ss_dist_fact` is the
`None` placeholder of an unmaterialized (not yet loaded) set. -/
structure SSLedger where
  num_ss : Nat
  ss_prop1 : List Int
  ss_status : List Int
  ss_sizes : List Nat
  ss_names : List String
  num_dist_fact : List Nat
  ss_dist_fact : List (Option (List Int))
  ss_elem : List (Option (List Int))
  ss_sides : List (Option (List Int))
deriving DecidableEq, Repr

/-- Sequence a list of `Except` computations, stopping at the first error
(the behaviour of a Python `for` loop whose body may raise). -/
def exMapM {E A B : Type} (f : A → Except E B) : List A → Except E (List B)
  | [] => .ok []
  | a :: t =>
      match f a with
      | .error e => .error e
      | .ok b =>
          match exMapM f t with
          | .error e => .error e
          | .ok bs => .ok (b :: bs)

/-- One iteration of the seeding loop of `SSLedger.__init__`: the metadata
appended for existing set `i`, together with the backing-store reads it
performs. -/
def SSLedger.initRow (st : Store) (i : Nat) :
    Except PyErr ((Int × Int × Nat × String × Nat) × List Event) :=
  let id := st.prop1.getD i 0
  let nm := if st.hasNames then st.names.getD i "" else "ss" ++ toString i
  match Exodus.get_sideset_params st id with
  | .error e => .error e
  | .ok p =>
      .ok ((id, st.status.getD i 0, st.sizes.getD i 0, nm, p.2),
        [.readProp1 i, .readStatus i, .readDim ("num_side_ss" ++ toString (i + 1))]
          ++ (if st.hasNames then [Event.readName i] else [])
          ++ [.readParams id])

/-- `SSLedger.__init__(ex)`: read the set count from the `num_side_sets`
dimension (0 when absent), then seed the parallel metadata lists from the
backing store, leaving every member, side and weight entry as the `None`
placeholder. -/
def SSLedger.init (st : Store) : Except PyErr (SSLedger × List Event) :=
  let n := if st.hasNumSideSets then st.numSideSetsDim else 0
  match exMapM (fun i => SSLedger.initRow st i) (List.range n) with
  | .error e => .error e
  | .ok rows =>
      .ok ({ num_ss := n,
             ss_prop1 := rows.map (fun r => r.1.1),
             ss_status := rows.map (fun r => r.1.2.1),
             ss_sizes := rows.map (fun r => r.1.2.2.1),
             ss_names := rows.map (fun r => r.1.2.2.2.1),
             num_dist_fact := rows.map (fun r => r.1.2.2.2.2),
             ss_dist_fact := List.replicate n none,
             ss_elem := List.replicate n none,
             ss_sides := List.replicate n none },
        [Event.readDim ("num_side_sets")] ++ rows.flatMap (fun r => r.2))

/-- `SSLedger.add_sideset(elem_ids, side_ids, ss_id, ss_name, dist_fact)`.
Returns the state after the call together with the raised exception, if
any.  The three validation checks run before any mutation; when
`dist_fact` is `None`, the `len(dist_fact)` call raises `TypeError` after
six of the nine fields have already been mutated, and the partially
mutated state is returned alongside the error. -/
def SSLedger.add_sideset (L : SSLedger) (elem_ids side_ids : List Int) (ss_id : Int)
    (ss_name : String) (dist_fact : Option (List Int)) : SSLedger × Option PyErr :=
  if ss_id ∈ L.ss_prop1 then
    (L, some (.exception ("Sideset with the same id already exists")))
  else if elem_ids.length ≠ side_ids.length then
    (L, some (.exception ("Number of element and number of sides do not match")))
  else if MAX_NAME_LENGTH < ss_name.length then
    (L, some (.exception ("Passed in name is too long")))
  else
    let L1 : SSLedger :=
      { L with
        ss_elem := L.ss_elem ++ [some elem_ids],
        ss_sides := L.ss_sides ++ [some side_ids],
        ss_prop1 := L.ss_prop1 ++ [ss_id],
        ss_sizes := L.ss_sizes ++ [elem_ids.length],
        ss_status := L.ss_status ++ [1],
        ss_names := L.ss_names ++ [ss_name] }
    match dist_fact with
    | none => (L1, some (.typeError ("object of type NoneType has no len()")))
    | some df =>
        ({ L1 with
           num_dist_fact := L1.num_dist_fact ++ [df.length],
           ss_dist_fact := L1.ss_dist_fact ++ [some df],
           num_ss := L1.num_ss + 1 }, none)

/-- `SSLedger.find_sideset_num(ss_id)`: linear scan of positions
`0 ≤ i < num_ss` for the first one whose `ss_prop1[i]` equals `ss_id`;
raises `IndexError` when no position matches.  List reads use the
in-range default-value accessor; the parallel-lengths invariant keeps
them in range exactly where Python would not raise `IndexError`. -/
def SSLedger.find_sideset_num (L : SSLedger) (ss_id : Int) : Except PyErr Nat :=
  match (List.range L.num_ss).find? (fun i => ss_id == L.ss_prop1.getD i 0) with
  | some i => .ok i
  | none => .error (.indexError ("Cannot find sideset with ID " ++ toString ss_id))

/-- `SSLedger.remove_sideset(ss_id)`: look the set up, then `pop` the found
position out of each of the eight parallel lists and decrement the count. -/
def SSLedger.remove_sideset (L : SSLedger) (ss_id : Int) : SSLedger × Option PyErr :=
  match L.find_sideset_num ss_id with
  | .error e => (L, some e)
  | .ok ndx =>
      ({ num_ss := L.num_ss - 1,
         ss_prop1 := L.ss_prop1.eraseIdx ndx,
         ss_status := L.ss_status.eraseIdx ndx,
         ss_names := L.ss_names.eraseIdx ndx,
         ss_elem := L.ss_elem.eraseIdx ndx,
         ss_sizes := L.ss_sizes.eraseIdx ndx,
         ss_sides := L.ss_sides.eraseIdx ndx,
         num_dist_fact := L.num_dist_fact.eraseIdx ndx,
         ss_dist_fact := L.ss_dist_fact.eraseIdx ndx }, none)

/-- The lazy-materialization block of `SSLedger.add_sides_to_sideset`
(the `if self.ss_elem[ndx] is None` branch): load the full member, side
and weight arrays of the set through the facade and store them at `ndx`.
`get_side_set_df` is only called after the member and side entries have
been assigned, so an error from it leaves those two entries loaded. -/
def SSLedger.materializeStep (st : Store) (L : SSLedger) (ndx : Nat) (ss_id : Int) :
    SSLedger × List Event × Option PyErr :=
  if (L.ss_elem.getD ndx none).isNone then
    match Exodus.get_side_set st ss_id with
    | .error e => (L, [], some e)
    | .ok ss =>
        let L1 : SSLedger :=
          { L with
            ss_elem := L.ss_elem.set ndx (some ss.1),
            ss_sides := L.ss_sides.set ndx (some ss.2) }
        match Exodus.get_side_set_df st ss_id with
        | .error e => (L1, [Event.readSideSet ss_id], some e)
        | .ok df =>
            ({ L1 with ss_dist_fact := L1.ss_dist_fact.set ndx (some df) },
              [Event.readSideSet ss_id, Event.readSideSetDF ss_id], none)
  else (L, [], none)

/-- `np.append` applied to a slot that may still hold the `None`
placeholder.  In every state the ledger code reaches, the slot has been
filled before this runs (materialization fills members, sides and weights
together), so this is list concatenation; the placeholder case is modelled
as appending to the empty array. -/
def npAppendO (a : Option (List Int)) (b : List Int) : List Int :=
  a.getD [] ++ b

/-- `SSLedger.add_sides_to_sideset(elem_ids, side_ids, dist_facts, ss_id)`:
look the set up, lazily materialize it if needed, then concatenate the new
elements, sides and weights onto the stored arrays and grow the recorded
size and weight count. -/
def SSLedger.add_sides_to_sideset (st : Store) (L : SSLedger)
    (elem_ids side_ids dist_facts : List Int) (ss_id : Int) :
    SSLedger × List Event × Option PyErr :=
  match L.find_sideset_num ss_id with
  | .error e => (L, [], some e)
  | .ok ndx =>
      match L.materializeStep st ndx ss_id with
      | (L1, evs, some e) => (L1, evs, some e)
      | (L1, evs, none) =>
          ({ L1 with
             ss_elem := L1.ss_elem.set ndx (some (npAppendO (L1.ss_elem.getD ndx none) elem_ids)),
             ss_sides := L1.ss_sides.set ndx (some (npAppendO (L1.ss_sides.getD ndx none) side_ids)),
             ss_dist_fact :=
               L1.ss_dist_fact.set ndx (some (npAppendO (L1.ss_dist_fact.getD ndx none) dist_facts)),
             ss_sizes := L1.ss_sizes.set ndx (L1.ss_sizes.getD ndx 0 + elem_ids.length),
             num_dist_fact :=
               L1.num_dist_fact.set ndx (L1.num_dist_fact.getD ndx 0 + dist_facts.length) },
            evs, none)

/-- `SSLedger.convert_string(s)`: the 33-cell masked character row written
into a name table slot; cell `i` holds the `i`-th character of `s` and the
cells past the end of `s` are masked (`none`). -/
def SSLedger.convert_string (s : String) : List (Option Char) :=
  (List.range 33).map (fun i => if h : i < s.length then some (s.toList.get ⟨i, by simpa using h⟩) else none)

/-- The dimensions and variables created by `SSLedger.write(data)` on the
output dataset. -/
structure Sink where
  dims : List (String × Nat)
  ss_status : List Int
  ss_prop1 : List Int
  ss_names : List (List (Option Char))
  elemVars : List (List Int)
  sideVars : List (List Int)
  dfVars : List (List Int)
deriving DecidableEq, Repr

/-- The empty output dataset (nothing written). -/
def Sink.empty : Sink := ⟨[], [], [], [], [], [], []⟩

/-- The per-set body of the final loop of `SSLedger.write`: the member,
side and weight arrays written for position `i` — each taken from memory
when its entry is filled and read fresh through the facade
(`get_side_set` / `get_side_set_df` under the set's external id) when the
entry still holds the `None` placeholder. -/
def SSLedger.writeRow (st : Store) (L : SSLedger) (i : Nat) :
    Except PyErr (List Int × List Int × List Int) :=
  match
    (match L.ss_elem.getD i none with
     | none =>
         match Exodus.get_side_set st (L.ss_prop1.getD i 0) with
         | .error e => Except.error e
         | .ok p => Except.ok p.1
     | some v => Except.ok v) with
  | .error e => Except.error e
  | .ok ev =>
    match
      (match L.ss_sides.getD i none with
       | none =>
           match Exodus.get_side_set st (L.ss_prop1.getD i 0) with
           | .error e => Except.error e
           | .ok p => Except.ok p.2
       | some v => Except.ok v) with
    | .error e => Except.error e
    | .ok sv =>
      match
        (match L.ss_dist_fact.getD i none with
         | none => Exodus.get_side_set_df st (L.ss_prop1.getD i 0)
         | some v => Except.ok v) with
      | .error e => Except.error e
      | .ok dv => Except.ok (ev, sv, dv)

/-- `SSLedger.write(data)`: when the count is zero, write nothing;
otherwise create the count dimension, the two per-set size dimensions, the
status, id and name tables, and per set the member, side and weight
arrays — serialized from memory when materialized and read fresh through
the facade (pass-through) when the entry still holds the `None`
placeholder. -/
def SSLedger.write (st : Store) (L : SSLedger) : Except PyErr Sink :=
  if L.num_ss = 0 then .ok Sink.empty
  else
    let dims := [(("num_side_sets" : String), L.num_ss)] ++
      (List.range L.num_ss).flatMap (fun i =>
        [("num_df_ss" ++ toString (i + 1), L.num_dist_fact.getD i 0),
         ("num_side_ss" ++ toString (i + 1), L.ss_sizes.getD i 0)])
    match exMapM (fun i => SSLedger.writeRow st L i) (List.range L.num_ss) with
    | .error e => .error e
    | .ok rows =>
        .ok { dims := dims,
              ss_status := L.ss_status,
              ss_prop1 := L.ss_prop1,
              ss_names := L.ss_names.map (fun s => SSLedger.convert_string (s ++ "\x00")),
              elemVars := rows.map (fun r => r.1),
              sideVars := rows.map (fun r => r.2.1),
              dfVars := rows.map (fun r => r.2.2) }

/-- `Exodus.add_nodeset` / `remove_nodeset` / `merge_nodeset` forward to
the node-set ledger; the forwarded call is recorded as a value so that
theorems can state whether the ledger is ever reached. -/
inductive LedgerCall where
  | addNodesetCall (node_ids : List Int) (nodeset_id : Int)
  | removeNodesetCall (nodeset_id : Int)
  | mergeNodesetsCall (new_id ns1 ns2 : Int)
deriving DecidableEq, Repr

/-- `Exodus.add_nodeset(node_ids, nodeset_id)`: the mode guard as written
in the source (`mode != 'w' or mode != 'a'`), then forwarding to the
node-set ledger. -/
def Exodus.add_nodeset (mode : String) (node_ids : List Int) (nodeset_id : Int) :
    Except PyErr LedgerCall :=
  if mode ≠ "w" ∨ mode ≠ "a" then
    .error (.permissionError ("Need to be in write or append mode to add nodeset"))
  else
    .ok (.addNodesetCall node_ids nodeset_id)

/-- `Exodus.remove_nodeset(nodeset_id)`: same guard, then forwarding. -/
def Exodus.remove_nodeset (mode : String) (nodeset_id : Int) : Except PyErr LedgerCall :=
  if mode ≠ "w" ∨ mode ≠ "a" then
    .error (.permissionError ("Need to be in write or append mode to add nodeset"))
  else
    .ok (.removeNodesetCall nodeset_id)

/-- `Exodus.merge_nodeset(new_id, ns1, ns2)`: same guard, then forwarding. -/
def Exodus.merge_nodeset (mode : String) (new_id ns1 ns2 : Int) : Except PyErr LedgerCall :=
  if mode ≠ "w" ∨ mode ≠ "a" then
    .error (.permissionError ("Need to be in write or append mode to add nodeset"))
  else
    .ok (.mergeNodesetsCall new_id ns1 ns2)

/-! ### Helper lemmas -/

/-- `exMapM` succeeds with the pointwise results when every step succeeds. -/
theorem exMapM_ok {E A B : Type} (f : A → Except E B) (g : A → B) :
    ∀ (l : List A), (∀ a ∈ l, f a = .ok (g a)) → exMapM f l = .ok (l.map g) := by
  intro l
  induction l with
  | nil => intro _; rfl
  | cons a t ih =>
      intro h
      have ha : f a = .ok (g a) := h a (List.mem_cons_self a t)
      have ht : exMapM f t = .ok (t.map g) :=
        ih (fun x hx => h x (List.mem_cons_of_mem a hx))
      simp [exMapM, ha, ht]

/-- `find?` over `range n` returns the first index satisfying the
predicate. -/
theorem find_range_first :
    ∀ (n : Nat) (p : Nat → Bool) (i : Nat), i < n → p i = true → (∀ j, j < i → p j = false) →
      (List.range n).find? p = some i := by
  intro n
  induction n with
  | zero => intro p i hi; exact absurd hi (Nat.not_lt_zero i)
  | succ n ih =>
      intro p i hi hp hfirst
      rw [List.range_succ_eq_map, List.find?_cons]
      cases hzero : p 0 with
      | true =>
          have hi0 : i = 0 := by
            by_contra hne
            have : p 0 = false := hfirst 0 (by omega)
            rw [this] at hzero
            exact Bool.noConfusion hzero
          subst hi0
          rfl
      | false =>
          have hi0 : i ≠ 0 := by
            intro e
            rw [e] at hp
            rw [hp] at hzero
            exact Bool.noConfusion hzero
          obtain ⟨i', rfl⟩ : ∃ i', i = i' + 1 := ⟨i - 1, by omega⟩
          rw [List.find?_map]
          rw [ih (p ∘ Nat.succ) i' (by omega) hp (fun j hj => hfirst (j + 1) (by omega))]
          rfl

/-- `find?` over `range n` fails when no index below `n` satisfies the
predicate. -/
theorem find_range_none (p : Nat → Bool) (n : Nat) (h : ∀ j, j < n → p j = false) :
    (List.range n).find? p = none := by
  apply List.find?_eq_none.mpr
  intro x hx
  rw [List.mem_range] at hx
  simp [h x hx]

/-- Reading every position of a list with the defaulting accessor
reproduces the list. -/
theorem map_range_getD {α : Type} (d : α) :
    ∀ (l : List α), (List.range l.length).map (fun i => l.getD i d) = l := by
  intro l
  induction l with
  | nil => rfl
  | cons a t ih =>
      have hf : ((fun i => (a :: t).getD i d) ∘ Nat.succ) = fun i => t.getD i d := by
        funext i
        rfl
      rw [List.length_cons, List.range_succ_eq_map, List.map_cons, List.map_map, hf, ih]
      rfl

/-- In a duplicate-free list, scanning for the value stored at position
`i` finds exactly position `i`. -/
theorem find_range_getD_nodup (l : List Int) (hn : l.Nodup) (i : Nat) (hi : i < l.length) :
    (List.range l.length).find? (fun j => l.getD j 0 == l.getD i 0) = some i := by
  apply find_range_first _ _ _ hi (by simp)
  intro j hj
  have hjl : j < l.length := by omega
  rw [List.getD_eq_getElem l 0 hjl, List.getD_eq_getElem l 0 hi]
  simp only [beq_eq_false_iff_ne, ne_eq]
  rw [hn.getElem_inj_iff]
  omega

/-! ### A small concrete ledger used by witnesses -/

/-- A one-set ledger (external id 4, three members) in fully materialized
state, used to instantiate hypotheses of the claim theorems. -/
def sampleLedger : SSLedger :=
  { num_ss := 1,
    ss_prop1 := [4],
    ss_status := [1],
    ss_sizes := [3],
    ss_names := ["left"],
    num_dist_fact := [3],
    ss_dist_fact := [some [7, 8, 9]],
    ss_elem := [some [10, 11, 12]],
    ss_sides := [some [1, 2, 1]] }

/-! ### Claim theorems -/

/-- C10: for every Exodus handle mode, each of the public node-set
mutation entry points `add_nodeset`, `remove_nodeset` and `merge_nodeset`
raises `PermissionError` and never forwards the call to the ledger,
because the guard `mode != 'w' or mode != 'a'` is true for every mode. -/
theorem claim10_nodeset_entry_points_always_permission_error
    (mode : String) (node_ids : List Int) (nodeset_id new_id ns1 ns2 : Int) :
    Exodus.add_nodeset mode node_ids nodeset_id =
      .error (.permissionError ("Need to be in write or append mode to add nodeset")) ∧
    Exodus.remove_nodeset mode nodeset_id =
      .error (.permissionError ("Need to be in write or append mode to add nodeset")) ∧
    Exodus.merge_nodeset mode new_id ns1 ns2 =
      .error (.permissionError ("Need to be in write or append mode to add nodeset")) := by
  have hguard : mode ≠ "w" ∨ mode ≠ "a" := by
    by_cases h : mode = "w"
    · right
      rw [h]
      decide
    · left
      exact h
  refine ⟨?_, ?_, ?_⟩ <;>
    simp only [Exodus.add_nodeset, Exodus.remove_nodeset, Exodus.merge_nodeset, if_pos hguard]

/-- C3: a create call whose external id already exists fails with the
duplicate-identifier exception and returns the ledger exactly as it was,
with no partial mutation. -/
theorem claim3_duplicate_create_fails_and_leaves_ledger_unchanged
    (L : SSLedger) (elem_ids side_ids : List Int) (ss_id : Int) (ss_name : String)
    (dist_fact : Option (List Int)) (hdup : ss_id ∈ L.ss_prop1) :
    L.add_sideset elem_ids side_ids ss_id ss_name dist_fact =
      (L, some (.exception ("Sideset with the same id already exists"))) := by
  simp only [SSLedger.add_sideset, if_pos hdup]

/-- C3 witness: the duplicate-create theorem applied at the concrete
one-set ledger with its own id. -/
theorem claim3_witness :
    (4 : Int) ∈ sampleLedger.ss_prop1 ∧
    sampleLedger.add_sideset [13] [2] 4 "dup" none =
      (sampleLedger, some (.exception ("Sideset with the same id already exists"))) :=
  ⟨by decide,
   claim3_duplicate_create_fails_and_leaves_ledger_unchanged sampleLedger [13] [2] 4 "dup" none
     (by decide)⟩

/-- C4 counterexample: the claim admits an absent (`None`) weight
sequence, but the code calls `len(dist_fact)` on it, which raises
`TypeError` after six of the nine fields were already appended: the call
neither succeeds nor leaves the ledger unmutated. -/
theorem claim4_counterexample :
    (sampleLedger.add_sideset [13] [2] 5 "newset" none).2 =
      some (.typeError ("object of type NoneType has no len()")) ∧
    (sampleLedger.add_sideset [13] [2] 5 "newset" none).1.ss_prop1 = [4, 5] ∧
    (sampleLedger.add_sideset [13] [2] 5 "newset" none).1.num_dist_fact = [3] ∧
    (sampleLedger.add_sideset [13] [2] 5 "newset" none).1.num_ss = 1 := by
  decide

/-- C4 (amended): a create call with a fresh external id, a name within
the length bound, element and side arrays of equal length, and a
**provided** weight sequence of equal length succeeds, appends a fully
materialized set at the end (receiving the next internal index), records
its size as the member count and its status as live, and increments the
count by one.  The operation's definition takes no backing store, so it
performs no backing-store interaction. -/
theorem claim4_create_appends_materialized_set
    (L : SSLedger) (elem_ids side_ids : List Int) (ss_id : Int) (ss_name : String)
    (df : List Int) (hfresh : ss_id ∉ L.ss_prop1) (hlen : elem_ids.length = side_ids.length)
    (hname : ss_name.length ≤ MAX_NAME_LENGTH) (hdf : df.length = elem_ids.length)
    (hplen : L.ss_prop1.length = L.num_ss) :
    L.add_sideset elem_ids side_ids ss_id ss_name (some df) =
      ({ num_ss := L.num_ss + 1,
         ss_prop1 := L.ss_prop1 ++ [ss_id],
         ss_status := L.ss_status ++ [1],
         ss_sizes := L.ss_sizes ++ [elem_ids.length],
         ss_names := L.ss_names ++ [ss_name],
         num_dist_fact := L.num_dist_fact ++ [df.length],
         ss_dist_fact := L.ss_dist_fact ++ [some df],
         ss_elem := L.ss_elem ++ [some elem_ids],
         ss_sides := L.ss_sides ++ [some side_ids] }, none) ∧
    (L.add_sideset elem_ids side_ids ss_id ss_name (some df)).1.find_sideset_num ss_id =
      .ok L.num_ss := by
  have heq : L.add_sideset elem_ids side_ids ss_id ss_name (some df) =
      ({ num_ss := L.num_ss + 1,
         ss_prop1 := L.ss_prop1 ++ [ss_id],
         ss_status := L.ss_status ++ [1],
         ss_sizes := L.ss_sizes ++ [elem_ids.length],
         ss_names := L.ss_names ++ [ss_name],
         num_dist_fact := L.num_dist_fact ++ [df.length],
         ss_dist_fact := L.ss_dist_fact ++ [some df],
         ss_elem := L.ss_elem ++ [some elem_ids],
         ss_sides := L.ss_sides ++ [some side_ids] }, none) := by
    have hlen' : ¬elem_ids.length ≠ side_ids.length := fun h => h hlen
    have hname' : ¬MAX_NAME_LENGTH < ss_name.length := Nat.not_lt.mpr hname
    simp only [SSLedger.add_sideset, if_neg hfresh, if_neg hlen', if_neg hname']
  refine ⟨heq, ?_⟩
  rw [heq]
  simp only [SSLedger.find_sideset_num]
  rw [find_range_first (L.num_ss + 1) _ L.num_ss (by omega)]
  · rw [← hplen, List.getD_append_right L.ss_prop1 [ss_id] 0 L.ss_prop1.length (le_refl _)]
    simp
  · intro j hj
    have hjl : j < L.ss_prop1.length := by omega
    rw [List.getD_append L.ss_prop1 [ss_id] 0 j hjl, List.getD_eq_getElem L.ss_prop1 0 hjl]
    simp only [beq_eq_false_iff_ne, ne_eq]
    intro hcontra
    exact hfresh (hcontra ▸ List.getElem_mem hjl)

/-- C4 witness: the amended create theorem applied at the concrete
one-set ledger with a fresh id and matching weights. -/
theorem claim4_witness :
    ((5 : Int) ∉ sampleLedger.ss_prop1 ∧ ([13] : List Int).length = ([2] : List Int).length ∧
      ("newset" : String).length ≤ MAX_NAME_LENGTH ∧
      ([6] : List Int).length = ([13] : List Int).length ∧
      sampleLedger.ss_prop1.length = sampleLedger.num_ss) ∧
    (sampleLedger.add_sideset [13] [2] 5 "newset" (some [6]) =
      ({ num_ss := 2,
         ss_prop1 := [4, 5],
         ss_status := [1, 1],
         ss_sizes := [3, 1],
         ss_names := ["left", "newset"],
         num_dist_fact := [3, 1],
         ss_dist_fact := [some [7, 8, 9], some [6]],
         ss_elem := [some [10, 11, 12], some [13]],
         ss_sides := [some [1, 2, 1], some [2]] }, none) ∧
      (sampleLedger.add_sideset [13] [2] 5 "newset" (some [6])).1.find_sideset_num 5 = .ok 1) :=
  ⟨⟨by decide, by decide, by decide, by decide, by decide⟩,
   claim4_create_appends_materialized_set sampleLedger [13] [2] 5 "newset" [6]
     (by decide) (by decide) (by decide) (by decide) (by decide)⟩

/-- C5 counterexample: a create call supplying a one-element weight
sequence for a two-member set raises no error and mutates the ledger,
refuting the claim that it fails with a length mismatch and leaves the
ledger unchanged. -/
theorem claim5_counterexample :
    (sampleLedger.add_sideset [13, 14] [2, 2] 5 "newset" (some [6])).2 = none ∧
    (sampleLedger.add_sideset [13, 14] [2, 2] 5 "newset" (some [6])).1 ≠ sampleLedger := by
  decide

/-- C5 (amended): create performs no weight-length validation: with a
fresh id, a name within the bound and equal element/side lengths, a
weight sequence whose length differs from the members' length is accepted
without error, and the set is appended with its weight count recorded as
the supplied sequence's length. -/
theorem claim5_create_accepts_mismatched_weights
    (L : SSLedger) (elem_ids side_ids : List Int) (ss_id : Int) (ss_name : String)
    (df : List Int) (hfresh : ss_id ∉ L.ss_prop1) (hlen : elem_ids.length = side_ids.length)
    (hname : ss_name.length ≤ MAX_NAME_LENGTH) (hdf : df.length ≠ elem_ids.length) :
    (L.add_sideset elem_ids side_ids ss_id ss_name (some df)).2 = none ∧
    (L.add_sideset elem_ids side_ids ss_id ss_name (some df)).1.num_dist_fact =
      L.num_dist_fact ++ [df.length] ∧
    (L.add_sideset elem_ids side_ids ss_id ss_name (some df)).1.ss_sizes =
      L.ss_sizes ++ [elem_ids.length] ∧
    (L.add_sideset elem_ids side_ids ss_id ss_name (some df)).1.num_ss = L.num_ss + 1 := by
  have hlen' : ¬elem_ids.length ≠ side_ids.length := fun h => h hlen
  have hname' : ¬MAX_NAME_LENGTH < ss_name.length := Nat.not_lt.mpr hname
  simp only [SSLedger.add_sideset, if_neg hfresh, if_neg hlen', if_neg hname']
  simp

/-- C5 witness: the amended mismatched-weights theorem applied at the
concrete one-set ledger. -/
theorem claim5_witness :
    ((5 : Int) ∉ sampleLedger.ss_prop1 ∧
      ([13, 14] : List Int).length = ([2, 2] : List Int).length ∧
      ("newset" : String).length ≤ MAX_NAME_LENGTH ∧
      ([6] : List Int).length ≠ ([13, 14] : List Int).length) ∧
    ((sampleLedger.add_sideset [13, 14] [2, 2] 5 "newset" (some [6])).2 = none ∧
      (sampleLedger.add_sideset [13, 14] [2, 2] 5 "newset" (some [6])).1.num_dist_fact =
        sampleLedger.num_dist_fact ++ [([6] : List Int).length] ∧
      (sampleLedger.add_sideset [13, 14] [2, 2] 5 "newset" (some [6])).1.ss_sizes =
        sampleLedger.ss_sizes ++ [([13, 14] : List Int).length] ∧
      (sampleLedger.add_sideset [13, 14] [2, 2] 5 "newset" (some [6])).1.num_ss =
        sampleLedger.num_ss + 1) :=
  ⟨⟨by decide, by decide, by decide, by decide⟩,
   claim5_create_accepts_mismatched_weights sampleLedger [13, 14] [2, 2] 5 "newset" [6]
     (by decide) (by decide) (by decide) (by decide)⟩

/-! ### Ledger invariant and positional helpers -/

/-- The structural invariant of a reachable ledger state: duplicate-free
external ids and all eight parallel per-set lists of length equal to the
set count. -/
def SSLedger.Inv (L : SSLedger) : Prop :=
  L.ss_prop1.Nodup ∧ L.ss_prop1.length = L.num_ss ∧ L.ss_status.length = L.num_ss ∧
  L.ss_sizes.length = L.num_ss ∧ L.ss_names.length = L.num_ss ∧
  L.num_dist_fact.length = L.num_ss ∧ L.ss_dist_fact.length = L.num_ss ∧
  L.ss_elem.length = L.num_ss ∧ L.ss_sides.length = L.num_ss

/-- The full record of the set stored at position `i` of a ledger: id,
status, size, name, weight count, weights, members, sides. -/
def SSLedger.entryAt (L : SSLedger) (i : Nat) :
    Int × Int × Nat × String × Nat × Option (List Int) × Option (List Int) × Option (List Int) :=
  (L.ss_prop1.getD i 0, L.ss_status.getD i 0, L.ss_sizes.getD i 0, L.ss_names.getD i "",
   L.num_dist_fact.getD i 0, L.ss_dist_fact.getD i none, L.ss_elem.getD i none,
   L.ss_sides.getD i none)

/-- Reading at or past the removal point of `eraseIdx` sees the element
one position further in the original list. -/
theorem getD_eraseIdx_of_ge {α : Type} (l : List α) (p j : Nat) (d : α) (h : p ≤ j) :
    (l.eraseIdx p).getD j d = l.getD (j + 1) d := by
  rw [List.getD_eq_getElem?_getD, List.getD_eq_getElem?_getD, List.getElem?_eraseIdx,
    if_neg (by omega)]

/-- Reading before the removal point of `eraseIdx` sees the original
element. -/
theorem getD_eraseIdx_of_lt {α : Type} (l : List α) (p j : Nat) (d : α) (h : j < p) :
    (l.eraseIdx p).getD j d = l.getD j d := by
  rw [List.getD_eq_getElem?_getD, List.getD_eq_getElem?_getD, List.getElem?_eraseIdx,
    if_pos h]

/-- Removing the unique occurrence of a value from a duplicate-free list
removes it from membership. -/
theorem not_mem_eraseIdx_of_nodup (l : List Int) (hn : l.Nodup) (p : Nat) (hp : p < l.length)
    (a : Int) (ha : l.getD p 0 = a) : a ∉ l.eraseIdx p := by
  intro hmem
  rw [List.mem_iff_getElem] at hmem
  obtain ⟨j, hj, hje⟩ := hmem
  have hj? : (l.eraseIdx p)[j]? = some a := by rw [List.getElem?_eq_getElem hj, hje]
  rw [List.getElem?_eraseIdx] at hj?
  rw [List.getD_eq_getElem l 0 hp] at ha
  by_cases hjp : j < p
  · rw [if_pos hjp] at hj?
    obtain ⟨hjl, hja⟩ := List.getElem?_eq_some_iff.mp hj?
    exact absurd (hn.getElem_inj_iff.mp (hja.trans ha.symm)) (by omega)
  · rw [if_neg hjp] at hj?
    obtain ⟨hjl, hja⟩ := List.getElem?_eq_some_iff.mp hj?
    exact absurd (hn.getElem_inj_iff.mp (hja.trans ha.symm)) (by omega)

/-- C6: `remove_sideset` fails with the not-found `IndexError` when no set
carries the id and leaves the ledger unchanged; when the id is found at
position `p`, it removes position `p` from every parallel per-set list,
decrements the count, makes a subsequent lookup of the id fail, and
shifts every set previously at a position greater than `p` down by
exactly one. -/
theorem claim6_remove_deletes_position_and_shifts
    (L : SSLedger) (ss_id : Int) :
    (L.ss_prop1.length = L.num_ss → ss_id ∉ L.ss_prop1 →
      L.remove_sideset ss_id =
        (L, some (.indexError ("Cannot find sideset with ID " ++ toString ss_id)))) ∧
    (∀ p, L.Inv → L.find_sideset_num ss_id = .ok p →
      (L.remove_sideset ss_id).2 = none ∧
      (L.remove_sideset ss_id).1.num_ss = L.num_ss - 1 ∧
      (L.remove_sideset ss_id).1.ss_prop1 = L.ss_prop1.eraseIdx p ∧
      (L.remove_sideset ss_id).1.ss_status = L.ss_status.eraseIdx p ∧
      (L.remove_sideset ss_id).1.ss_sizes = L.ss_sizes.eraseIdx p ∧
      (L.remove_sideset ss_id).1.ss_names = L.ss_names.eraseIdx p ∧
      (L.remove_sideset ss_id).1.num_dist_fact = L.num_dist_fact.eraseIdx p ∧
      (L.remove_sideset ss_id).1.ss_dist_fact = L.ss_dist_fact.eraseIdx p ∧
      (L.remove_sideset ss_id).1.ss_elem = L.ss_elem.eraseIdx p ∧
      (L.remove_sideset ss_id).1.ss_sides = L.ss_sides.eraseIdx p ∧
      (L.remove_sideset ss_id).1.find_sideset_num ss_id =
        .error (.indexError ("Cannot find sideset with ID " ++ toString ss_id)) ∧
      (∀ q, p < q → (L.remove_sideset ss_id).1.entryAt (q - 1) = L.entryAt q)) := by
  constructor
  · intro hplen hnm
    have hfind : L.find_sideset_num ss_id =
        .error (.indexError ("Cannot find sideset with ID " ++ toString ss_id)) := by
      simp only [SSLedger.find_sideset_num]
      rw [find_range_none]
      intro j hj
      have hjl : j < L.ss_prop1.length := by omega
      rw [List.getD_eq_getElem L.ss_prop1 0 hjl]
      simp only [beq_eq_false_iff_ne, ne_eq]
      intro hcontra
      exact hnm (hcontra ▸ List.getElem_mem hjl)
    simp only [SSLedger.remove_sideset, hfind]
  · intro p hInv hfind
    obtain ⟨hn, hplen, hslen, hzlen, hnlen, hdlen, hflen, helen, hsslen⟩ := hInv
    have hf : (List.range L.num_ss).find? (fun i => ss_id == L.ss_prop1.getD i 0) = some p := by
      have h := hfind
      simp only [SSLedger.find_sideset_num] at h
      cases hq : (List.range L.num_ss).find? (fun i => ss_id == L.ss_prop1.getD i 0) with
      | none => rw [hq] at h; exact absurd h (by simp)
      | some j =>
          rw [hq] at h
          simp only [Except.ok.injEq] at h
          rw [h]
    have hp : p < L.num_ss := List.mem_range.mp (List.mem_of_find?_eq_some hf)
    have h1 := List.find?_some hf
    simp only [beq_iff_eq] at h1
    have hpid : L.ss_prop1.getD p 0 = ss_id := h1.symm
    have hnotmem : ss_id ∉ L.ss_prop1.eraseIdx p :=
      not_mem_eraseIdx_of_nodup L.ss_prop1 hn p (by omega) ss_id hpid
    have hfind2 : (L.remove_sideset ss_id).1.find_sideset_num ss_id =
        .error (.indexError ("Cannot find sideset with ID " ++ toString ss_id)) := by
      simp only [SSLedger.remove_sideset, hfind]
      simp only [SSLedger.find_sideset_num]
      rw [find_range_none]
      intro j hj
      have hjl : j < (L.ss_prop1.eraseIdx p).length := by
        rw [List.length_eraseIdx, if_pos (by omega)]
        omega
      rw [List.getD_eq_getElem (L.ss_prop1.eraseIdx p) 0 hjl]
      simp only [beq_eq_false_iff_ne, ne_eq]
      intro hcontra
      exact hnotmem (hcontra ▸ List.getElem_mem hjl)
    have hshift : ∀ q, p < q → (L.remove_sideset ss_id).1.entryAt (q - 1) = L.entryAt q := by
      intro q hq
      have hq1 : q - 1 + 1 = q := by omega
      simp only [SSLedger.remove_sideset, hfind, SSLedger.entryAt]
      rw [getD_eraseIdx_of_ge _ p (q - 1) _ (by omega), hq1,
        getD_eraseIdx_of_ge _ p (q - 1) _ (by omega), hq1,
        getD_eraseIdx_of_ge _ p (q - 1) _ (by omega), hq1,
        getD_eraseIdx_of_ge _ p (q - 1) _ (by omega), hq1,
        getD_eraseIdx_of_ge _ p (q - 1) _ (by omega), hq1,
        getD_eraseIdx_of_ge _ p (q - 1) _ (by omega), hq1,
        getD_eraseIdx_of_ge _ p (q - 1) _ (by omega), hq1,
        getD_eraseIdx_of_ge _ p (q - 1) _ (by omega), hq1]
    refine ⟨?_, ?_, ?_, ?_, ?_, ?_, ?_, ?_, ?_, ?_, hfind2, hshift⟩ <;>
      simp only [SSLedger.remove_sideset, hfind]

/-- A two-set fully materialized ledger used by witnesses that remove or
shift sets. -/
def sampleLedger2 : SSLedger :=
  { num_ss := 2,
    ss_prop1 := [4, 9],
    ss_status := [1, 1],
    ss_sizes := [3, 1],
    ss_names := ["left", "right"],
    num_dist_fact := [3, 1],
    ss_dist_fact := [some [7, 8, 9], some [5]],
    ss_elem := [some [10, 11, 12], some [20]],
    ss_sides := [some [1, 2, 1], some [3]] }

/-- C6 witness: the removal theorem applied at a missing id (99) on the
one-set ledger and at the first set (id 4) of the two-set ledger. -/
theorem claim6_witness :
    (sampleLedger.ss_prop1.length = sampleLedger.num_ss ∧ (99 : Int) ∉ sampleLedger.ss_prop1 ∧
      sampleLedger.remove_sideset 99 =
        (sampleLedger, some (.indexError ("Cannot find sideset with ID " ++ toString (99 : Int))))) ∧
    (sampleLedger2.Inv ∧ sampleLedger2.find_sideset_num 4 = .ok 0 ∧
      (sampleLedger2.remove_sideset 4).2 = none ∧
      (sampleLedger2.remove_sideset 4).1.find_sideset_num 4 =
        .error (.indexError ("Cannot find sideset with ID " ++ toString (4 : Int))) ∧
      (sampleLedger2.remove_sideset 4).1.entryAt 0 = sampleLedger2.entryAt 1) := by
  have hInv : sampleLedger2.Inv := ⟨by decide, rfl, rfl, rfl, rfl, rfl, rfl, rfl, rfl⟩
  have hfind : sampleLedger2.find_sideset_num 4 = .ok 0 := rfl
  have h2 := (claim6_remove_deletes_position_and_shifts sampleLedger2 4).2 0 hInv hfind
  obtain ⟨hc1, _, _, _, _, _, _, _, _, _, hc11, hc12⟩ := h2
  exact ⟨⟨rfl, by decide,
    (claim6_remove_deletes_position_and_shifts sampleLedger 99).1 rfl (by decide)⟩,
    hInv, hfind, hc1, hc11, hc12 1 (by decide)⟩

/-- Writing a slot and reading it back returns the written value. -/
theorem getD_set_self {α : Type} (l : List α) (i : Nat) (a d : α) (h : i < l.length) :
    (l.set i a).getD i d = a := by
  rw [List.getD_eq_getElem _ _ (by rw [List.length_set]; exact h)]
  exact List.getElem_set_self _

/-- C7: for a set present in the ledger, `add_sides_to_sideset` first
ensures the set is materialized and then concatenates the new element,
side and weight arrays onto the prior ones in order, growing the recorded
size and weight count by the appended lengths — both from an
already-materialized starting state (no backing-store reads) and from a
lazily-materialized one (whose prior arrays are the ones the facade
returns). -/
theorem claim7_append_is_concatenation
    (st : Store) (L : SSLedger) (elem_ids side_ids dist_facts : List Int) (ss_id : Int)
    (ndx : Nat) (hfind : L.find_sideset_num ss_id = .ok ndx) (hInv : L.Inv) :
    (∀ ea sa da,
      L.ss_elem.getD ndx none = some ea → L.ss_sides.getD ndx none = some sa →
      L.ss_dist_fact.getD ndx none = some da →
      L.add_sides_to_sideset st elem_ids side_ids dist_facts ss_id =
        ({ L with
           ss_elem := L.ss_elem.set ndx (some (ea ++ elem_ids)),
           ss_sides := L.ss_sides.set ndx (some (sa ++ side_ids)),
           ss_dist_fact := L.ss_dist_fact.set ndx (some (da ++ dist_facts)),
           ss_sizes := L.ss_sizes.set ndx (L.ss_sizes.getD ndx 0 + elem_ids.length),
           num_dist_fact :=
             L.num_dist_fact.set ndx (L.num_dist_fact.getD ndx 0 + dist_facts.length) },
          [], none)) ∧
    (∀ se sa da,
      L.ss_elem.getD ndx none = none →
      Exodus.get_side_set st ss_id = .ok (se, sa) →
      Exodus.get_side_set_df st ss_id = .ok da →
      L.add_sides_to_sideset st elem_ids side_ids dist_facts ss_id =
        ({ L with
           ss_elem := L.ss_elem.set ndx (some (se ++ elem_ids)),
           ss_sides := L.ss_sides.set ndx (some (sa ++ side_ids)),
           ss_dist_fact := L.ss_dist_fact.set ndx (some (da ++ dist_facts)),
           ss_sizes := L.ss_sizes.set ndx (L.ss_sizes.getD ndx 0 + elem_ids.length),
           num_dist_fact :=
             L.num_dist_fact.set ndx (L.num_dist_fact.getD ndx 0 + dist_facts.length) },
          [Event.readSideSet ss_id, Event.readSideSetDF ss_id], none)) := by
  obtain ⟨hn, hplen, hslen, hzlen, hnlen, hdlen, hflen, helen, hsslen⟩ := hInv
  have hndx : ndx < L.num_ss := by
    have h := hfind
    simp only [SSLedger.find_sideset_num] at h
    cases hq : (List.range L.num_ss).find? (fun i => ss_id == L.ss_prop1.getD i 0) with
    | none => rw [hq] at h; exact absurd h (by simp)
    | some j =>
        rw [hq] at h
        simp only [Except.ok.injEq] at h
        subst h
        exact List.mem_range.mp (List.mem_of_find?_eq_some hq)
  constructor
  · intro ea sa da he hs hd
    simp only [SSLedger.add_sides_to_sideset, hfind, SSLedger.materializeStep, he,
      Option.isNone_some, Bool.false_eq_true, if_false, npAppendO, hs, hd, Option.getD_some]
  · intro se sa da he hgss hgdf
    simp only [SSLedger.add_sides_to_sideset, hfind, SSLedger.materializeStep, he,
      Option.isNone_none, if_true, hgss, hgdf]
    have h1 : (L.ss_elem.set ndx (some se)).getD ndx none = some se :=
      getD_set_self L.ss_elem ndx (some se) none (by omega)
    have h2 : (L.ss_sides.set ndx (some sa)).getD ndx none = some sa :=
      getD_set_self L.ss_sides ndx (some sa) none (by omega)
    have h3 : (L.ss_dist_fact.set ndx (some da)).getD ndx none = some da :=
      getD_set_self L.ss_dist_fact ndx (some da) none (by omega)
    simp only [h1, h2, h3, npAppendO, Option.getD_some, List.set_set]

/-- A one-set backing store matching `sampleLedger`: external id 4,
members `[10,11,12]`, sides `[1,2,1]`, weights `[7,8,9]`. -/
def sampleStore : Store :=
  { hasNumSideSets := true,
    numSideSetsDim := 1,
    prop1 := [4],
    status := [1],
    sizes := [3],
    hasNames := true,
    names := ["left"],
    dfSizes := [3],
    elems := [[10, 11, 12]],
    sides := [[1, 2, 1]],
    dfs := [[7, 8, 9]] }

/-- The ledger seeded from `sampleStore` with its single set still
unmaterialized. -/
def sampleLedgerU : SSLedger :=
  { num_ss := 1,
    ss_prop1 := [4],
    ss_status := [1],
    ss_sizes := [3],
    ss_names := ["left"],
    num_dist_fact := [3],
    ss_dist_fact := [none],
    ss_elem := [none],
    ss_sides := [none] }

/-- C7 witness: the append theorem applied on the materialized one-set
ledger and on its unmaterialized twin backed by `sampleStore`. -/
theorem claim7_witness :
    (sampleLedger.find_sideset_num 4 = .ok 0 ∧ sampleLedger.Inv ∧
      sampleLedger.ss_elem.getD 0 none = some [10, 11, 12] ∧
      sampleLedger.ss_sides.getD 0 none = some [1, 2, 1] ∧
      sampleLedger.ss_dist_fact.getD 0 none = some [7, 8, 9] ∧
      sampleLedger.add_sides_to_sideset sampleStore [13] [2] [6] 4 =
        ({ sampleLedger with
           ss_elem := sampleLedger.ss_elem.set 0 (some ([10, 11, 12] ++ [13])),
           ss_sides := sampleLedger.ss_sides.set 0 (some ([1, 2, 1] ++ [2])),
           ss_dist_fact := sampleLedger.ss_dist_fact.set 0 (some ([7, 8, 9] ++ [6])),
           ss_sizes := sampleLedger.ss_sizes.set 0 (sampleLedger.ss_sizes.getD 0 0 +
             ([13] : List Int).length),
           num_dist_fact := sampleLedger.num_dist_fact.set 0
             (sampleLedger.num_dist_fact.getD 0 0 + ([6] : List Int).length) },
          [], none)) ∧
    (sampleLedgerU.find_sideset_num 4 = .ok 0 ∧ sampleLedgerU.Inv ∧
      sampleLedgerU.ss_elem.getD 0 none = none ∧
      Exodus.get_side_set sampleStore 4 = .ok ([10, 11, 12], [1, 2, 1]) ∧
      Exodus.get_side_set_df sampleStore 4 = .ok [7, 8, 9] ∧
      sampleLedgerU.add_sides_to_sideset sampleStore [13] [2] [6] 4 =
        ({ sampleLedgerU with
           ss_elem := sampleLedgerU.ss_elem.set 0 (some ([10, 11, 12] ++ [13])),
           ss_sides := sampleLedgerU.ss_sides.set 0 (some ([1, 2, 1] ++ [2])),
           ss_dist_fact := sampleLedgerU.ss_dist_fact.set 0 (some ([7, 8, 9] ++ [6])),
           ss_sizes := sampleLedgerU.ss_sizes.set 0 (sampleLedgerU.ss_sizes.getD 0 0 +
             ([13] : List Int).length),
           num_dist_fact := sampleLedgerU.num_dist_fact.set 0
             (sampleLedgerU.num_dist_fact.getD 0 0 + ([6] : List Int).length) },
          [Event.readSideSet 4, Event.readSideSetDF 4], none)) := by
  have hInvM : sampleLedger.Inv := ⟨by decide, rfl, rfl, rfl, rfl, rfl, rfl, rfl, rfl⟩
  have hInvU : sampleLedgerU.Inv := ⟨by decide, rfl, rfl, rfl, rfl, rfl, rfl, rfl, rfl⟩
  refine ⟨⟨rfl, hInvM, rfl, rfl, rfl, ?_⟩, ⟨rfl, hInvU, rfl, rfl, rfl, ?_⟩⟩
  · exact (claim7_append_is_concatenation sampleStore sampleLedger [13] [2] [6] 4 0
      rfl hInvM).1 [10, 11, 12] [1, 2, 1] [7, 8, 9] rfl rfl rfl
  · exact (claim7_append_is_concatenation sampleStore sampleLedgerU [13] [2] [6] 4 0
      rfl hInvU).2 [10, 11, 12] [1, 2, 1] [7, 8, 9] rfl rfl rfl

/-- C8: materialization is idempotent and happens at most once per set —
the materialization block is a no-op with no backing-store reads on an
already-materialized set; an append on a materialized set performs no
bulk reads at all; and any successful append leaves its target
materialized, so later mutating calls on that set fall into the no-op
case. -/
theorem claim8_materialization_at_most_once
    (st : Store) (L : SSLedger) (ndx : Nat) (ss_id : Int)
    (elem_ids side_ids dist_facts : List Int) :
    ((L.ss_elem.getD ndx none).isSome →
      L.materializeStep st ndx ss_id = (L, [], none)) ∧
    (L.find_sideset_num ss_id = .ok ndx → (L.ss_elem.getD ndx none).isSome →
      (L.add_sides_to_sideset st elem_ids side_ids dist_facts ss_id).2.1 = [] ∧
      (L.add_sides_to_sideset st elem_ids side_ids dist_facts ss_id).2.2 = none) ∧
    (L.find_sideset_num ss_id = .ok ndx → ndx < L.ss_elem.length →
      (L.add_sides_to_sideset st elem_ids side_ids dist_facts ss_id).2.2 = none →
      ((L.add_sides_to_sideset st elem_ids side_ids dist_facts ss_id).1.ss_elem.getD ndx
        none).isSome) := by
  have hmat : (L.ss_elem.getD ndx none).isSome →
      L.materializeStep st ndx ss_id = (L, [], none) := by
    intro h
    obtain ⟨v, hv⟩ := Option.isSome_iff_exists.mp h
    simp only [SSLedger.materializeStep, hv, Option.isNone_some, Bool.false_eq_true, if_false]
  refine ⟨hmat, ?_, ?_⟩
  · intro hfind h
    simp only [SSLedger.add_sides_to_sideset, hfind, hmat h]
    simp
  · intro hfind hlen hok
    cases he : L.ss_elem.getD ndx none with
    | some v =>
        have hsome : (L.ss_elem.getD ndx none).isSome := by rw [he]; rfl
        simp only [SSLedger.add_sides_to_sideset, hfind, hmat hsome]
        rw [getD_set_self _ _ _ _ hlen]
        rfl
    | none =>
        cases hgss : Exodus.get_side_set st ss_id with
        | error e =>
            simp only [SSLedger.add_sides_to_sideset, hfind, SSLedger.materializeStep, he,
              Option.isNone_none, if_true, hgss] at hok
            exact Option.noConfusion hok
        | ok ss =>
            cases hgdf : Exodus.get_side_set_df st ss_id with
            | error e =>
                simp only [SSLedger.add_sides_to_sideset, hfind, SSLedger.materializeStep, he,
                  Option.isNone_none, if_true, hgss, hgdf] at hok
                exact Option.noConfusion hok
            | ok df =>
                simp only [SSLedger.add_sides_to_sideset, hfind, SSLedger.materializeStep, he,
                  Option.isNone_none, if_true, hgss, hgdf, List.set_set]
                rw [getD_set_self _ _ _ _ hlen]
                rfl

/-- C8 witness: the at-most-once theorem applied on the materialized
one-set ledger (no-op, no reads) and its unmaterialized twin (successful
append leaves the set materialized). -/
theorem claim8_witness :
    ((sampleLedger.ss_elem.getD 0 none).isSome ∧
      sampleLedger.materializeStep sampleStore 0 4 = (sampleLedger, [], none) ∧
      (sampleLedger.add_sides_to_sideset sampleStore [13] [2] [6] 4).2.1 = [] ∧
      (sampleLedger.add_sides_to_sideset sampleStore [13] [2] [6] 4).2.2 = none) ∧
    (sampleLedgerU.find_sideset_num 4 = .ok 0 ∧ 0 < sampleLedgerU.ss_elem.length ∧
      (sampleLedgerU.add_sides_to_sideset sampleStore [13] [2] [6] 4).2.2 = none ∧
      ((sampleLedgerU.add_sides_to_sideset sampleStore [13] [2] [6] 4).1.ss_elem.getD 0
        none).isSome) := by
  have h2ok : (sampleLedgerU.add_sides_to_sideset sampleStore [13] [2] [6] 4).2.2 = none := rfl
  have hc := claim8_materialization_at_most_once sampleStore sampleLedger 0 4 [13] [2] [6]
  have hcU := claim8_materialization_at_most_once sampleStore sampleLedgerU 0 4 [13] [2] [6]
  exact ⟨⟨rfl, hc.1 rfl, (hc.2.1 rfl rfl).1, (hc.2.1 rfl rfl).2⟩,
    ⟨rfl, by decide, h2ok, hcU.2.2 rfl (by decide) h2ok⟩⟩

/-! ### Seeding from a well-formed store -/

/-- Well-formedness of an opened Exodus database's side-set contents: the
per-set tables all have one entry per side set and the external ids are
unique (the format's own invariant, which `ss_prop1` carries). -/
def Store.WF (st : Store) : Prop :=
  st.prop1.length = st.num_side_sets ∧ st.status.length = st.num_side_sets ∧
  st.sizes.length = st.num_side_sets ∧ st.names.length = st.num_side_sets ∧
  st.dfSizes.length = st.num_side_sets ∧ st.elems.length = st.num_side_sets ∧
  st.sides.length = st.num_side_sets ∧ st.dfs.length = st.num_side_sets ∧
  st.prop1.Nodup

/-- Reading any in-range slot of a replicated list returns the replicated
value. -/
theorem getD_replicate {α : Type} (n i : Nat) (a d : α) (h : i < n) :
    (List.replicate n a).getD i d = a := by
  rw [List.getD_eq_getElem?_getD, List.getElem?_replicate, if_pos h]
  rfl

/-- The per-position seeding data of `SSLedger.__init__` over a store:
metadata tuple and backing-store reads for existing set `i`. -/
def seedRow (st : Store) (i : Nat) : (Int × Int × Nat × String × Nat) × List Event :=
  ((st.prop1.getD i 0, st.status.getD i 0, st.sizes.getD i 0,
    (if st.hasNames then st.names.getD i "" else "ss" ++ toString i), st.dfSizes.getD i 0),
   [.readProp1 i, .readStatus i, .readDim ("num_side_ss" ++ toString (i + 1))]
     ++ (if st.hasNames then [Event.readName i] else [])
     ++ [.readParams (st.prop1.getD i 0)])

/-- On a well-formed store, the params getter of the facade succeeds for
every seeded id and returns that set's size and weight-count metadata. -/
theorem get_sideset_params_ok (st : Store) (hwf : st.WF) (i : Nat)
    (hi : i < st.num_side_sets) :
    Exodus.get_sideset_params st (st.prop1.getD i 0) =
      .ok (st.sizes.getD i 0, st.dfSizes.getD i 0) := by
  obtain ⟨h1, h2, h3, h4, h5, h6, h7, h8, h9⟩ := hwf
  unfold Exodus.get_sideset_params Exodus.get_side_set_params Exodus.lookup_id
  rw [if_neg (by omega), find_range_getD_nodup st.prop1 h9 i (by omega)]
  simp [Nat.add_sub_cancel]

/-- The ledger state `SSLedger.__init__` builds over a well-formed store:
metadata copied from the store, every member/side/weight entry the `None`
placeholder. -/
def seededLedger (st : Store) : SSLedger :=
  { num_ss := st.num_side_sets,
    ss_prop1 := st.prop1,
    ss_status := st.status,
    ss_sizes := st.sizes,
    ss_names := (List.range st.num_side_sets).map
      (fun i => if st.hasNames then st.names.getD i "" else "ss" ++ toString i),
    num_dist_fact := st.dfSizes,
    ss_dist_fact := List.replicate st.num_side_sets none,
    ss_elem := List.replicate st.num_side_sets none,
    ss_sides := List.replicate st.num_side_sets none }

/-- On a well-formed store, seeding succeeds and produces exactly the
metadata ledger: ids, statuses, sizes, names and weight counts copied
from the store, every member/side/weight entry still the `None`
placeholder, and only the reads recorded in `seedRow` (plus the count
dimension read) issued. -/
theorem init_ok (st : Store) (hwf : st.WF) :
    SSLedger.init st =
      .ok (seededLedger st,
        [Event.readDim ("num_side_sets")] ++
          (List.range st.num_side_sets).flatMap (fun i => (seedRow st i).2)) := by
  obtain ⟨h1, h2, h3, h4, h5, h6, h7, h8, h9⟩ := hwf
  have hrow : ∀ i ∈ List.range st.num_side_sets,
      SSLedger.initRow st i = .ok (seedRow st i) := by
    intro i hi
    have hi' : i < st.num_side_sets := List.mem_range.mp hi
    simp only [SSLedger.initRow]
    rw [get_sideset_params_ok st ⟨h1, h2, h3, h4, h5, h6, h7, h8, h9⟩ i hi']
    rfl
  have hmap := exMapM_ok (fun i => SSLedger.initRow st i) (fun i => seedRow st i)
    (List.range st.num_side_sets) hrow
  have hn : (if st.hasNumSideSets then st.numSideSetsDim else 0) = st.num_side_sets := rfl
  simp only [SSLedger.init]
  rw [hn, hmap]
  have hprop : (List.range st.num_side_sets).map (fun i => st.prop1.getD i 0) = st.prop1 := by
    rw [← h1]
    exact map_range_getD 0 st.prop1
  have hstatus : (List.range st.num_side_sets).map (fun i => st.status.getD i 0) = st.status := by
    rw [← h2]
    exact map_range_getD 0 st.status
  have hsizes : (List.range st.num_side_sets).map (fun i => st.sizes.getD i 0) = st.sizes := by
    rw [← h3]
    exact map_range_getD 0 st.sizes
  have hdf : (List.range st.num_side_sets).map (fun i => st.dfSizes.getD i 0) = st.dfSizes := by
    rw [← h5]
    exact map_range_getD 0 st.dfSizes
  simp only [List.map_map, List.flatMap_map, Function.comp_def, seedRow]
  rw [hprop, hstatus, hsizes, hdf]
  rfl

/-- Every backing-store read issued while seeding one set is a
lightweight metadata read, not a bulk array load. -/
theorem seedRow_events_not_bulk (st : Store) (i : Nat) (ev : Event)
    (h : ev ∈ (seedRow st i).2) : ev.isBulk = false := by
  simp only [seedRow] at h
  rcases List.mem_append.mp h with h1 | h1
  · rcases List.mem_append.mp h1 with h2 | h2
    · simp only [List.mem_cons, List.not_mem_nil, or_false] at h2
      rcases h2 with rfl | rfl | rfl <;> rfl
    · cases hb : st.hasNames
      · rw [hb] at h2
        simp at h2
      · rw [hb] at h2
        simp at h2
        rw [h2]
        rfl
  · simp only [List.mem_cons, List.not_mem_nil, or_false] at h1
    rw [h1]
    rfl

/-- C2: constructing the side-set ledger on a well-formed backing store
succeeds, reads only lightweight per-set metadata (count, external ids,
statuses, sizes, names, weight counts — no bulk array loads), and leaves
every existing set's member, side and weight entries unmaterialized. -/
theorem claim2_seeding_reads_only_metadata (st : Store) (hwf : st.WF) :
    ∃ L evs, SSLedger.init st = .ok (L, evs) ∧
      (∀ ev ∈ evs, ev.isBulk = false) ∧
      L.num_ss = st.num_side_sets ∧ L.ss_prop1 = st.prop1 ∧ L.ss_status = st.status ∧
      L.ss_sizes = st.sizes ∧ L.num_dist_fact = st.dfSizes ∧
      (st.hasNames = true → L.ss_names = st.names) ∧
      L.ss_elem = List.replicate st.num_side_sets none ∧
      L.ss_sides = List.replicate st.num_side_sets none ∧
      L.ss_dist_fact = List.replicate st.num_side_sets none := by
  refine ⟨_, _, init_ok st hwf, ?_, rfl, rfl, rfl, rfl, rfl, ?_, rfl, rfl, rfl⟩
  · intro ev hev
    rcases List.mem_append.mp hev with h | h
    · simp only [List.mem_cons, List.not_mem_nil, or_false] at h
      rw [h]
      rfl
    · obtain ⟨i, hi, hmem⟩ := List.mem_flatMap.mp h
      exact seedRow_events_not_bulk st i ev hmem
  · intro hnames
    obtain ⟨h1, h2, h3, h4, h5, h6, h7, h8, h9⟩ := hwf
    simp only [seededLedger, hnames, if_true]
    rw [← h4]
    exact map_range_getD "" st.names

/-- C2 witness: seeding from the concrete one-set store. -/
theorem claim2_witness :
    sampleStore.WF ∧
    (∃ L evs, SSLedger.init sampleStore = .ok (L, evs) ∧
      (∀ ev ∈ evs, ev.isBulk = false) ∧
      L.num_ss = sampleStore.num_side_sets ∧ L.ss_prop1 = sampleStore.prop1 ∧
      L.ss_status = sampleStore.status ∧
      L.ss_sizes = sampleStore.sizes ∧ L.num_dist_fact = sampleStore.dfSizes ∧
      (sampleStore.hasNames = true → L.ss_names = sampleStore.names) ∧
      L.ss_elem = List.replicate sampleStore.num_side_sets none ∧
      L.ss_sides = List.replicate sampleStore.num_side_sets none ∧
      L.ss_dist_fact = List.replicate sampleStore.num_side_sets none) := by
  have hwf : sampleStore.WF := ⟨rfl, rfl, rfl, rfl, rfl, rfl, rfl, rfl, by decide⟩
  exact ⟨hwf, claim2_seeding_reads_only_metadata sampleStore hwf⟩

/-- On a well-formed store, `get_side_set` under the id stored at position
`i` returns exactly the member and side arrays stored at position `i`. -/
theorem get_side_set_ok (st : Store) (hwf : st.WF) (i : Nat) (hi : i < st.num_side_sets) :
    Exodus.get_side_set st (st.prop1.getD i 0) = .ok (st.elems.getD i [], st.sides.getD i []) := by
  obtain ⟨h1, h2, h3, h4, h5, h6, h7, h8, h9⟩ := hwf
  unfold Exodus.get_side_set Exodus.lookup_id
  rw [if_neg (by omega), find_range_getD_nodup st.prop1 h9 i (by omega)]
  simp [Nat.add_sub_cancel]

/-- On a well-formed store, `get_side_set_df` under the id stored at
position `i` returns exactly the weight array stored at position `i`. -/
theorem get_side_set_df_ok (st : Store) (hwf : st.WF) (i : Nat) (hi : i < st.num_side_sets) :
    Exodus.get_side_set_df st (st.prop1.getD i 0) = .ok (st.dfs.getD i []) := by
  obtain ⟨h1, h2, h3, h4, h5, h6, h7, h8, h9⟩ := hwf
  unfold Exodus.get_side_set_df Exodus.lookup_id
  rw [if_neg (by omega), find_range_getD_nodup st.prop1 h9 i (by omega)]
  simp [Nat.add_sub_cancel]

/-- C1: on a well-formed backing store, a ledger seeded and never mutated
commits through the pass-through path: `write` succeeds and reproduces,
for every (untouched) set, the member, side and weight arrays identical
in content to the backing store's originals, read through the facade at
commit time. -/
theorem claim1_untouched_commit_roundtrip (st : Store) (hwf : st.WF) :
    ∃ L evs sink, SSLedger.init st = .ok (L, evs) ∧ SSLedger.write st L = .ok sink ∧
      sink.elemVars = st.elems ∧ sink.sideVars = st.sides ∧ sink.dfVars = st.dfs := by
  obtain ⟨h1, h2, h3, h4, h5, h6, h7, h8, h9⟩ := hwf
  by_cases hzero : st.num_side_sets = 0
  · refine ⟨seededLedger st, _, Sink.empty, init_ok st ⟨h1, h2, h3, h4, h5, h6, h7, h8, h9⟩,
      ?_, ?_, ?_, ?_⟩
    · simp only [SSLedger.write, seededLedger]
      rw [if_pos hzero]
    · exact (List.length_eq_zero.mp (by omega)).symm
    · exact (List.length_eq_zero.mp (by omega)).symm
    · exact (List.length_eq_zero.mp (by omega)).symm
  · have hrow : ∀ i ∈ List.range st.num_side_sets,
        SSLedger.writeRow st (seededLedger st) i =
          .ok (st.elems.getD i [], st.sides.getD i [], st.dfs.getD i []) := by
      intro i hi
      have hi' : i < st.num_side_sets := List.mem_range.mp hi
      simp only [SSLedger.writeRow, seededLedger]
      rw [getD_replicate st.num_side_sets i none none hi',
        get_side_set_ok st ⟨h1, h2, h3, h4, h5, h6, h7, h8, h9⟩ i hi',
        get_side_set_df_ok st ⟨h1, h2, h3, h4, h5, h6, h7, h8, h9⟩ i hi']
    have helems : (List.range st.num_side_sets).map (fun i => st.elems.getD i []) = st.elems := by
      rw [← h6]
      exact map_range_getD [] st.elems
    have hsides : (List.range st.num_side_sets).map (fun i => st.sides.getD i []) = st.sides := by
      rw [← h7]
      exact map_range_getD [] st.sides
    have hdfs : (List.range st.num_side_sets).map (fun i => st.dfs.getD i []) = st.dfs := by
      rw [← h8]
      exact map_range_getD [] st.dfs
    refine ⟨seededLedger st, _,
      { dims := [(("num_side_sets" : String), st.num_side_sets)] ++
          (List.range st.num_side_sets).flatMap (fun i =>
            [("num_df_ss" ++ toString (i + 1), st.dfSizes.getD i 0),
             ("num_side_ss" ++ toString (i + 1), st.sizes.getD i 0)]),
        ss_status := st.status,
        ss_prop1 := st.prop1,
        ss_names := (List.range st.num_side_sets).map
          (fun i => SSLedger.convert_string
            ((if st.hasNames then st.names.getD i "" else "ss" ++ toString i) ++ "\x00")),
        elemVars := st.elems, sideVars := st.sides, dfVars := st.dfs },
      init_ok st ⟨h1, h2, h3, h4, h5, h6, h7, h8, h9⟩, ?_, rfl, rfl, rfl⟩
    simp only [SSLedger.write]
    rw [show (seededLedger st).num_ss = st.num_side_sets from rfl]
    rw [if_neg hzero]
    rw [exMapM_ok (fun i => SSLedger.writeRow st (seededLedger st) i)
      (fun i => (st.elems.getD i [], st.sides.getD i [], st.dfs.getD i []))
      (List.range st.num_side_sets) hrow]
    simp only [seededLedger, List.map_map, Function.comp_def]
    rw [helems, hsides, hdfs]

/-- C1 witness: the round-trip theorem applied at the concrete one-set
store. -/
theorem claim1_witness :
    sampleStore.WF ∧
    (∃ L evs sink, SSLedger.init sampleStore = .ok (L, evs) ∧
      SSLedger.write sampleStore L = .ok sink ∧
      sink.elemVars = sampleStore.elems ∧ sink.sideVars = sampleStore.sides ∧
      sink.dfVars = sampleStore.dfs) := by
  have hwf : sampleStore.WF := ⟨rfl, rfl, rfl, rfl, rfl, rfl, rfl, rfl, by decide⟩
  exact ⟨hwf, claim1_untouched_commit_roundtrip sampleStore hwf⟩

/-! ### Operation sequences and invariant preservation -/

/-- One mutating ledger call of a session; `create` carries a provided
(non-`None`) weight sequence. -/
inductive SSOp where
  | create (elem_ids side_ids : List Int) (ss_id : Int) (ss_name : String) (dist_fact : List Int)
  | removeOp (ss_id : Int)
  | appendOp (elem_ids side_ids dist_facts : List Int) (ss_id : Int)

/-- The ledger state after one call (the state component of the call's
result, whether or not it raised). -/
def SSLedger.applyOp (st : Store) (L : SSLedger) : SSOp → SSLedger
  | .create e s id nm df => (L.add_sideset e s id nm (some df)).1
  | .removeOp id => (L.remove_sideset id).1
  | .appendOp e s d id => (L.add_sides_to_sideset st e s d id).1

/-- A successful lookup's position is below the set count. -/
theorem find_ok_lt (L : SSLedger) (id : Int) (p : Nat)
    (h : L.find_sideset_num id = .ok p) : p < L.num_ss := by
  simp only [SSLedger.find_sideset_num] at h
  cases hq : (List.range L.num_ss).find? (fun i => id == L.ss_prop1.getD i 0) with
  | none => rw [hq] at h; exact absurd h (by simp)
  | some j =>
      rw [hq] at h
      simp only [Except.ok.injEq] at h
      subst h
      exact List.mem_range.mp (List.mem_of_find?_eq_some hq)

/-- `create` preserves the structural invariant (with weights provided). -/
theorem Inv_add_sideset (L : SSLedger) (e s : List Int) (id : Int) (nm : String)
    (df : List Int) (h : L.Inv) : ((L.add_sideset e s id nm (some df)).1).Inv := by
  obtain ⟨hn, hp, hs, hz, hm, hd, hf, he, hsi⟩ := h
  simp only [SSLedger.add_sideset]
  by_cases h1 : id ∈ L.ss_prop1
  · rw [if_pos h1]
    exact ⟨hn, hp, hs, hz, hm, hd, hf, he, hsi⟩
  · rw [if_neg h1]
    by_cases h2 : e.length ≠ s.length
    · rw [if_pos h2]
      exact ⟨hn, hp, hs, hz, hm, hd, hf, he, hsi⟩
    · rw [if_neg h2]
      by_cases h3 : MAX_NAME_LENGTH < nm.length
      · rw [if_pos h3]
        exact ⟨hn, hp, hs, hz, hm, hd, hf, he, hsi⟩
      · rw [if_neg h3]
        have hnodup : (L.ss_prop1 ++ [id]).Nodup := by
          rw [List.nodup_append]
          refine ⟨hn, List.nodup_singleton id, ?_⟩
          intro a ha hmem
          rw [List.mem_singleton] at hmem
          exact h1 (hmem ▸ ha)
        refine ⟨hnodup, ?_, ?_, ?_, ?_, ?_, ?_, ?_, ?_⟩ <;>
          simp [hp, hs, hz, hm, hd, hf, he, hsi]

/-- `remove` preserves the structural invariant. -/
theorem Inv_remove_sideset (L : SSLedger) (id : Int) (h : L.Inv) :
    ((L.remove_sideset id).1).Inv := by
  obtain ⟨hn, hp, hs, hz, hm, hd, hf, he, hsi⟩ := h
  simp only [SSLedger.remove_sideset]
  cases hfind : L.find_sideset_num id with
  | error e => exact ⟨hn, hp, hs, hz, hm, hd, hf, he, hsi⟩
  | ok p =>
      have hp' : p < L.num_ss := find_ok_lt L id p hfind
      refine ⟨List.Nodup.sublist (List.eraseIdx_sublist L.ss_prop1 p) hn,
        ?_, ?_, ?_, ?_, ?_, ?_, ?_, ?_⟩ <;>
        · simp only [List.length_eraseIdx]
          rw [if_pos (by omega)]
          omega

/-- The lazy-materialization block preserves the structural invariant in
each of its outcomes. -/
theorem Inv_materializeStep (st : Store) (L : SSLedger) (ndx : Nat) (id : Int)
    (h : L.Inv) : ((L.materializeStep st ndx id).1).Inv := by
  obtain ⟨hn, hp, hs, hz, hm, hd, hf, he, hsi⟩ := h
  simp only [SSLedger.materializeStep]
  by_cases hel : (L.ss_elem.getD ndx none).isNone
  · rw [if_pos hel]
    cases hss : Exodus.get_side_set st id with
    | error e => exact ⟨hn, hp, hs, hz, hm, hd, hf, he, hsi⟩
    | ok ss =>
        cases hdf : Exodus.get_side_set_df st id with
        | error e =>
            exact ⟨hn, hp, hs, hz, hm, hd, by simp [List.length_set, hf],
              by simp [List.length_set, he], by simp [List.length_set, hsi]⟩
        | ok df =>
            exact ⟨hn, hp, hs, hz, hm, hd, by simp [List.length_set, hf],
              by simp [List.length_set, he], by simp [List.length_set, hsi]⟩
  · rw [if_neg hel]
    exact ⟨hn, hp, hs, hz, hm, hd, hf, he, hsi⟩

/-- `append_members` preserves the structural invariant in each of its
outcomes. -/
theorem Inv_add_sides_to_sideset (st : Store) (L : SSLedger) (e s d : List Int)
    (id : Int) (h : L.Inv) : ((L.add_sides_to_sideset st e s d id).1).Inv := by
  simp only [SSLedger.add_sides_to_sideset]
  split
  · exact h
  · rename_i ndx hfind
    split
    · rename_i L1 evs er heq
      have hmat := Inv_materializeStep st L ndx id h
      rw [heq] at hmat
      exact hmat
    · rename_i L1 evs heq
      have hmat := Inv_materializeStep st L ndx id h
      rw [heq] at hmat
      obtain ⟨hn, hp, hs, hz, hm, hd, hf, he, hsi⟩ := hmat
      exact ⟨hn, hp, hs, by simp [List.length_set, hz], hm,
        by simp [List.length_set, hd], by simp [List.length_set, hf],
        by simp [List.length_set, he], by simp [List.length_set, hsi]⟩

/-- The ledger with no sets (the seeded state of a freshly created
write-mode database). -/
def emptyLedger : SSLedger :=
  { num_ss := 0, ss_prop1 := [], ss_status := [], ss_sizes := [], ss_names := [],
    num_dist_fact := [], ss_dist_fact := [], ss_elem := [], ss_sides := [] }

/-- C9 counterexample: a single create call with a two-member set and a
one-entry weight sequence succeeds, leaving a state in which weights are
present but their length differs from the members' length — the
members/weights length-equality invariant is not preserved by every
operation sequence. -/
theorem claim9_counterexample :
    (emptyLedger.add_sideset [13, 14] [2, 2] 5 "x" (some [6])).2 = none ∧
    ∃ w m,
      (emptyLedger.add_sideset [13, 14] [2, 2] 5 "x" (some [6])).1.ss_dist_fact.getD 0 none =
        some w ∧
      (emptyLedger.add_sideset [13, 14] [2, 2] 5 "x" (some [6])).1.ss_elem.getD 0 none =
        some m ∧
      w.length ≠ m.length :=
  ⟨rfl, [6], [13, 14], rfl, rfl, by decide⟩

/-- C9 (amended): over a well-formed store, construction establishes, and
every sequence of create (with weights provided), remove and
append-members calls preserves, the structural invariants: no two sets
share an external id, every parallel per-set list has length equal to the
set count, and (internal position being purely positional) a create with
a fresh id appends at the end and is subsequently looked up at position
equal to the previous count.  The members/weights length-equality
invariant of the original claim is dropped: no operation validates weight
lengths. -/
theorem claim9_structural_invariants_preserved (st : Store) (hwf : st.WF) :
    (∀ L evs, SSLedger.init st = .ok (L, evs) → L.Inv) ∧
    (∀ (L : SSLedger) (op : SSOp), L.Inv → (SSLedger.applyOp st L op).Inv) ∧
    (∀ (L : SSLedger) (ops : List SSOp), L.Inv →
      (ops.foldl (fun M op => SSLedger.applyOp st M op) L).Inv) ∧
    (∀ (L : SSLedger) (e s : List Int) (id : Int) (nm : String) (df : List Int),
      L.Inv → id ∉ L.ss_prop1 → e.length = s.length → nm.length ≤ MAX_NAME_LENGTH →
      (L.add_sideset e s id nm (some df)).2 = none ∧
      (L.add_sideset e s id nm (some df)).1.find_sideset_num id = .ok L.num_ss) := by
  obtain ⟨h1, h2, h3, h4, h5, h6, h7, h8, h9⟩ := hwf
  have hstep : ∀ (L : SSLedger) (op : SSOp), L.Inv → (SSLedger.applyOp st L op).Inv := by
    intro L op hInv
    cases op with
    | create e s id nm df => exact Inv_add_sideset L e s id nm df hInv
    | removeOp id => exact Inv_remove_sideset L id hInv
    | appendOp e s d id => exact Inv_add_sides_to_sideset st L e s d id hInv
  refine ⟨?_, hstep, ?_, ?_⟩
  · intro L evs h
    rw [init_ok st ⟨h1, h2, h3, h4, h5, h6, h7, h8, h9⟩] at h
    simp only [Except.ok.injEq, Prod.mk.injEq] at h
    rw [← h.1]
    exact ⟨h9, h1, h2, h3, by simp [seededLedger], h5,
      by simp [seededLedger], by simp [seededLedger], by simp [seededLedger]⟩
  · intro L ops
    induction ops generalizing L with
    | nil => intro hInv; exact hInv
    | cons op t ih =>
        intro hInv
        exact ih (SSLedger.applyOp st L op) (hstep L op hInv)
  · intro L e s id nm df hInv hfresh hlen hname
    obtain ⟨hn, hp, hs, hz, hm, hd, hf, he, hsi⟩ := hInv
    have hlen' : ¬e.length ≠ s.length := fun h => h hlen
    have hname' : ¬MAX_NAME_LENGTH < nm.length := Nat.not_lt.mpr hname
    constructor
    · simp only [SSLedger.add_sideset, if_neg hfresh, if_neg hlen', if_neg hname']
    · simp only [SSLedger.add_sideset, if_neg hfresh, if_neg hlen', if_neg hname',
        SSLedger.find_sideset_num]
      rw [find_range_first (L.num_ss + 1) _ L.num_ss (by omega)]
      · rw [← hp, List.getD_append_right L.ss_prop1 [id] 0 L.ss_prop1.length (le_refl _)]
        simp
      · intro j hj
        have hjl : j < L.ss_prop1.length := by omega
        rw [List.getD_append L.ss_prop1 [id] 0 j hjl, List.getD_eq_getElem L.ss_prop1 0 hjl]
        simp only [beq_eq_false_iff_ne, ne_eq]
        intro hcontra
        exact hfresh (hcontra ▸ List.getElem_mem hjl)

/-- C9 witness: the invariants theorem applied at the concrete one-set
store and ledger, over a removal, a create-then-append sequence, and a
fresh create. -/
theorem claim9_witness :
    (sampleStore.WF ∧ sampleLedger.Inv ∧ (5 : Int) ∉ sampleLedger.ss_prop1 ∧
      ([13] : List Int).length = ([2] : List Int).length ∧
      ("newset" : String).length ≤ MAX_NAME_LENGTH) ∧
    ((SSLedger.applyOp sampleStore sampleLedger (SSOp.removeOp 4)).Inv ∧
      ([SSOp.create [13] [2] 5 "newset" [6], SSOp.appendOp [15] [1] [2] 4].foldl
        (fun M op => SSLedger.applyOp sampleStore M op) sampleLedger).Inv ∧
      (sampleLedger.add_sideset [13] [2] 5 "newset" (some [6])).2 = none ∧
      (sampleLedger.add_sideset [13] [2] 5 "newset" (some [6])).1.find_sideset_num 5 =
        .ok sampleLedger.num_ss) := by
  have hwf : sampleStore.WF := ⟨rfl, rfl, rfl, rfl, rfl, rfl, rfl, rfl, by decide⟩
  have hInv : sampleLedger.Inv := ⟨by decide, rfl, rfl, rfl, rfl, rfl, rfl, rfl, rfl⟩
  have hmain := claim9_structural_invariants_preserved sampleStore hwf
  have hlast := hmain.2.2.2 sampleLedger [13] [2] 5 "newset" [6] hInv (by decide) (by decide)
    (by decide)
  exact ⟨⟨hwf, hInv, by decide, by decide, by decide⟩,
    ⟨hmain.2.1 sampleLedger (SSOp.removeOp 4) hInv,
     hmain.2.2.1 sampleLedger [SSOp.create [13] [2] 5 "newset" [6],
       SSOp.appendOp [15] [1] [2] 4] hInv,
     hlast.1, hlast.2⟩⟩
